import Mathlib

/-!
Verification of the surveillance-data server (`server.js`): a shallow
embedding of its metadata-discovery and GPS extraction/aggregation engine.

Modelling conventions:
* JavaScript numbers are modelled by exact scaled decimals `Dec`
  (value `m / 10 ^ e`, kept in a normal form without trailing zeros, so
  that structural equality coincides with value equality); JavaScript
  `NaN` is modelled by `none` in `Option Dec` results, so `parseFloat`
  becomes `parseFloatD : String → Option Dec`.  The model does not
  represent the JavaScript `Infinity` value (it parses to `none`).
* A CSV row (as produced by `csv-parser`) is an association list from
  column name to raw string value; an absent key models `undefined`.
* JavaScript truthiness on string-or-undefined values: `undefined` and
  `""` are falsy, every other string is truthy.
* `Array.prototype.sort` (stable since ES2019) is modelled by the stable
  insertion sort `jsSort`, with `le a b` meaning "comparator result ≤ 0".
  (With a consistent comparator every stable sort computes the same list;
  where the server's comparator is inconsistent the ECMAScript result is
  implementation-defined and `jsSort` is one faithful choice.)
* `Date` parsing inside the timestamp comparator is kept abstract as a
  parameter `pd : String → Int` (milliseconds-since-epoch model).
-/

/-- An exact scaled decimal: the value `m / 10 ^ e`.  All decimals
produced by the server's parsing and rounding paths are representable. -/
structure Dec where
  m : Int
  e : Nat
deriving DecidableEq, Repr

/-- Normal form: strip factors of ten from the mantissa into the exponent,
so that each decimal value has one representation. -/
def Dec.norm : Int → Nat → Dec
  | m, 0 => ⟨m, 0⟩
  | m, e + 1 => if m % 10 = 0 then Dec.norm (m / 10) e else ⟨m, e + 1⟩

/-- The rational value of a scaled decimal. -/
def Dec.toRat (d : Dec) : Rat := (d.m : Rat) / (10 : Rat) ^ d.e

/-- Value order on scaled decimals, by cross multiplication. -/
def Dec.le (a b : Dec) : Prop := a.m * (10 : Int) ^ b.e ≤ b.m * (10 : Int) ^ a.e

instance (a b : Dec) : Decidable (Dec.le a b) := by
  unfold Dec.le; infer_instance

/-- Negation of a scaled decimal (normal form is preserved). -/
def Dec.neg (d : Dec) : Dec := ⟨-d.m, d.e⟩

/-- An integer as a scaled decimal. -/
def Dec.ofInt (n : Int) : Dec := ⟨n, 0⟩

/-- Normalisation does not change the value. -/
theorem Dec.toRat_norm (m : Int) (e : Nat) :
    (Dec.norm m e).toRat = (m : Rat) / (10 : Rat) ^ e := by
  induction e generalizing m with
  | zero => simp [Dec.norm, Dec.toRat]
  | succ e ih =>
    rw [Dec.norm]
    split
    · rename_i h
      have hdvd : (10 : Int) ∣ m := Int.dvd_of_emod_eq_zero h
      obtain ⟨k, rfl⟩ := hdvd
      rw [Int.mul_ediv_cancel_left _ (by norm_num), ih]
      push_cast
      rw [pow_succ]
      field_simp
      ring
    · simp [Dec.toRat]

/-- The cross-multiplication order agrees with the value order on `ℚ`. -/
theorem Dec.le_iff_toRat (a b : Dec) : Dec.le a b ↔ a.toRat ≤ b.toRat := by
  unfold Dec.le Dec.toRat
  rw [div_le_div_iff₀ (by positivity) (by positivity)]
  constructor
  · intro h
    exact_mod_cast h
  · intro h
    exact_mod_cast h

/-- Stable insertion of `a` into a list: `a` goes in front of the first
element `b` with `le a b`. -/
def jsInsert (le : α → α → Bool) (a : α) : List α → List α
  | [] => [a]
  | b :: l => if le a b then a :: b :: l else b :: jsInsert le a l

/-- Model of `Array.prototype.sort`: a stable sort by the boolean relation
"comparator result ≤ 0". -/
def jsSort (le : α → α → Bool) : List α → List α
  | [] => []
  | a :: l => jsInsert le a (jsSort le l)

/-- Model of `String.prototype.split` with the single-character path
separator, accumulating the current segment. -/
def splitAux : List Char → List Char → List String
  | [], acc => [String.mk acc.reverse]
  | c :: cs, acc =>
    if c = '/' then String.mk acc.reverse :: splitAux cs []
    else splitAux cs (c :: acc)

/-- `s.split(path.sep)`: note the JavaScript result on the empty string is
`[""]`, a single empty segment. -/
def splitOnSlash (s : String) : List String := splitAux s.data []

/-- A CSV row: ordered association of column name to raw string value. -/
abbrev Row := List (String × String)

/-- JavaScript truthiness of a string-or-undefined value: absent and empty are falsy. -/
def strTruthy : Option String → Bool
  | some s => s ≠ ""
  | none => false

/-- The JavaScript expression `a || b` on string-or-undefined values:
yields `b` exactly when `a` is falsy (absent or empty). -/
def jsOr (a b : Option String) : Option String :=
  match a with
  | some s => if s = "" then b else some s
  | none => b

/-- Numeric value of a run of decimal digit characters. -/
def digitsVal (ds : List Char) : Nat :=
  ds.foldl (fun n c => 10 * n + (c.toNat - 48)) 0

/-- Exponent part of a JavaScript float literal (`e`/`E`, optional sign,
digits); contributes `0` when absent or not followed by a digit. -/
def expVal : List Char → Int
  | c :: rest =>
    if c = 'e' ∨ c = 'E' then
      match rest with
      | '+' :: ds =>
        if (ds.takeWhile Char.isDigit).isEmpty then 0
        else (digitsVal (ds.takeWhile Char.isDigit) : Int)
      | '-' :: ds =>
        if (ds.takeWhile Char.isDigit).isEmpty then 0
        else -(digitsVal (ds.takeWhile Char.isDigit) : Int)
      | ds =>
        if (ds.takeWhile Char.isDigit).isEmpty then 0
        else (digitsVal (ds.takeWhile Char.isDigit) : Int)
    else 0
  | [] => 0

/-- Apply a decimal exponent to a mantissa with `f` fractional digits. -/
def applyExp (m : Int) (f : Nat) : Int → Dec
  | .ofNat k => Dec.norm (m * (10 : Int) ^ k) f
  | .negSucc k => Dec.norm m (f + (k + 1))

/-- Unsigned part of the JavaScript `parseFloat` grammar: digits, optional
fraction, optional exponent; `none` when no digit is consumed (`NaN`). -/
def parseUnsigned (cs : List Char) : Option Dec :=
  let intPart := cs.takeWhile Char.isDigit
  let rest := cs.drop intPart.length
  let fracPart :=
    match rest with
    | '.' :: r => r.takeWhile Char.isDigit
    | _ => []
  let rest2 :=
    match rest with
    | '.' :: r => r.drop (r.takeWhile Char.isDigit).length
    | _ => rest
  if intPart.isEmpty ∧ fracPart.isEmpty then none
  else
    some (applyExp
      ((digitsVal intPart * 10 ^ fracPart.length + digitsVal fracPart : Nat) : Int)
      fracPart.length (expVal rest2))

/-- Model of the JavaScript global `parseFloat`: skip leading whitespace,
optional sign, then the longest numeric prefix; `none` models `NaN`. -/
def parseFloatD (s : String) : Option Dec :=
  let cs := s.data.dropWhile Char.isWhitespace
  match cs with
  | '+' :: rest => parseUnsigned rest
  | '-' :: rest => (parseUnsigned rest).map Dec.neg
  | _ => parseUnsigned cs


/-- A GPS point as built by the server: coordinates, optional raw timestamp,
provenance, originating row index and the full originating row.  The
`source` tag is absent (`none`) on points produced by plain extraction and
is set by the aggregation endpoints. -/
structure GPSPoint where
  latitude : Dec
  longitude : Dec
  timestamp : Option String
  session : String
  camera : String
  anomalyType : String
  recordIndex : Nat
  source : Option String
  originalRecord : Row
deriving DecidableEq, Repr

/-- Ordered latitude candidate column names (server.js line 60). -/
def latitudeFields : List String :=
  ["latitude", "lat", "gps_lat", "gps_latitude", "y_coord", "y"]

/-- Ordered longitude candidate column names (server.js line 61). -/
def longitudeFields : List String :=
  ["longitude", "lng", "lon", "gps_lng", "gps_longitude", "x_coord", "x"]

/-- Ordered timestamp candidate column names (server.js line 62). -/
def timestampFields : List String :=
  ["timestamp", "time", "datetime", "created_at", "date", "detection_time"]

/-- Scan of the ordered candidate list for a numeric field: the first
candidate whose value in the row is truthy (present, non-empty) and parses
to a number wins; otherwise the scan continues (server.js lines 66-82). -/
def findNumField (record : Row) : List String → Option Dec
  | [] => none
  | f :: rest =>
    match record.lookup f with
    | some v =>
      if v = "" then findNumField record rest
      else
        match parseFloatD v with
        | some x => some x
        | none => findNumField record rest
    | none => findNumField record rest

/-- Scan of the ordered candidate list for the timestamp field: the first
candidate whose value is truthy wins; no numeric requirement
(server.js lines 85-91). -/
def findStrField (record : Row) : List String → Option String
  | [] => none
  | f :: rest =>
    match record.lookup f with
    | some v => if v = "" then findStrField record rest else some v
    | none => findStrField record rest

/-- The acceptance test of one numeric candidate column: value present,
non-empty, and numerically parseable (the condition on server.js line 69,
phrased as a predicate for the statement of the first-match property). -/
def numericCandidate (record : Row) (f : String) : Bool :=
  match record.lookup f with
  | some v => v ≠ "" && (parseFloatD v).isSome
  | none => false

/-- Pair each element of a list with its index, starting at `n`. -/
def enumerate : Nat → List α → List (Nat × α)
  | _, [] => []
  | n, a :: as => (n, a) :: enumerate (n + 1) as

/-- The coordinate range test applied before a point is emitted
(server.js line 96). -/
def coordsInRange (la ln : Dec) : Prop :=
  Dec.le (Dec.ofInt (-90)) la ∧ Dec.le la (Dec.ofInt 90) ∧
    Dec.le (Dec.ofInt (-180)) ln ∧ Dec.le ln (Dec.ofInt 180)

instance (la ln : Dec) : Decidable (coordsInRange la ln) := by
  unfold coordsInRange; infer_instance

/-- The body of the `forEach` of `extractGPSData` (server.js lines 65-109)
on one indexed row: resolve latitude/longitude/timestamp by candidate-list
scan; emit a point exactly when both coordinates resolve and pass the
range check, carrying the provenance, the row's 0-based index and the full
original row. -/
def extractRow (session camera anomalyType : String) (q : Nat × Row) : Option GPSPoint :=
  match findNumField q.2 latitudeFields, findNumField q.2 longitudeFields with
  | some la, some ln =>
    if coordsInRange la ln then
      some { latitude := la, longitude := ln,
             timestamp := findStrField q.2 timestampFields,
             session := session, camera := camera, anomalyType := anomalyType,
             recordIndex := q.1, source := none, originalRecord := q.2 }
    else none
  | _, _ => none

/-- `extractGPSData` (server.js lines 55-112): the rows that yield a point
do so in row order, skipped rows contributing nothing. -/
def extractGPSData (metadataRecords : List Row)
    (session camera anomalyType : String) : List GPSPoint :=
  (enumerate 0 metadataRecords).filterMap (extractRow session camera anomalyType)


mutual

/-- A filesystem directory in the model: `readable = false` means any
attempt to list it throws (permission failure), which the scanner catches. -/
inductive FSTree where
  | mk (readable : Bool) (items : List FSItem)

/-- A directory entry in the model: a plain file (with stat data) or a
subdirectory. -/
inductive FSItem where
  | file (name : String) (size : Nat) (mtime : Nat)
  | subdir (name : String) (tree : FSTree)

end

/-- Model of `path.join` for the simple relative paths the scanner builds:
joining from the empty path yields the segment itself. -/
def pjoin (a b : String) : String := if a = "" then b else a ++ "/" ++ b

/-- The JavaScript expression `s || d` on plain strings: the default wins
exactly when `s` is empty (or, in the scanner's fallback, absent). -/
def jsOrDefault (s d : String) : String := if s = "" then d else s

/-- One discovered metadata table (server.js lines 153-160). -/
structure CatalogEntry where
  path : String
  relativePath : String
  session : String
  camera : String
  anomalyType : String
  depth : Nat
deriving DecidableEq, Repr

/-- Derivation of the `(session, camera, anomalyType)` triple from the
path segments of the directory containing `metadata.csv`
(server.js lines 131-151). -/
def deriveTripleParts (pathParts : List String) : String × String × String :=
  if 3 ≤ pathParts.length then
    (pathParts.getD 0 "", pathParts.getD 1 "", pathParts.getD 2 "")
  else if pathParts.length = 2 then
    (pathParts.getD 0 "", pathParts.getD 1 "", "general")
  else
    (jsOrDefault (pathParts.getD 0 "") "unknown", "unknown", "general")

/-- The catalog entry built for a `metadata.csv` found in the directory
with relative path `relativePath` under full path `dirPath`. -/
def mkCatalogEntry (dirPath relativePath name : String) : CatalogEntry :=
  let pathParts := splitOnSlash relativePath
  let t := deriveTripleParts pathParts
  { path := pjoin dirPath name, relativePath := pjoin relativePath name,
    session := t.1, camera := t.2.1, anomalyType := t.2.2,
    depth := pathParts.length }

mutual

/-- `scanDirectory` (server.js lines 118-168) on a directory node: an
unreadable directory raises inside its own try/catch, so it contributes
nothing; a readable one is traversed item by item in listing order. -/
def scanDir : FSTree → String → String → List CatalogEntry
  | .mk readable items, dirPath, relativePath =>
    if readable then scanItems items dirPath relativePath else []

/-- Traversal of a directory listing in order, concatenating the entries
contributed by each item. -/
def scanItems : List FSItem → String → String → List CatalogEntry
  | [], _, _ => []
  | item :: rest, dirPath, relativePath =>
    scanItem item dirPath relativePath ++ scanItems rest dirPath relativePath

/-- One directory item: recurse into subdirectories; a file contributes an
entry exactly when its name is `metadata.csv`. -/
def scanItem : FSItem → String → String → List CatalogEntry
  | .subdir name tree, dirPath, relativePath =>
    scanDir tree (pjoin dirPath name) (pjoin relativePath name)
  | .file name _ _, dirPath, relativePath =>
    if name = "metadata.csv" then [mkCatalogEntry dirPath relativePath name] else []

end

/-- Lexicographic strict order on character lists by codepoint. -/
def charListLt : List Char → List Char → Bool
  | [], [] => false
  | [], _ :: _ => true
  | _ :: _, [] => false
  | a :: as, b :: bs =>
    if a.toNat < b.toNat then true
    else if b.toNat < a.toNat then false
    else charListLt as bs

/-- Strict string order by codepoint. -/
def strLt (x y : String) : Bool := charListLt x.data y.data

/-- Model of `String.prototype.localeCompare` restricted to its sign: a
three-valued comparison under the string order (locale-awareness is
abstracted to the codepoint order). -/
def localeCompare (x y : String) : Int :=
  if strLt x y then -1 else if x = y then 0 else 1

/-- The catalog sort comparator (server.js lines 173-177): by session,
then camera, then anomaly type. -/
def catalogCmp (a b : CatalogEntry) : Int :=
  if a.session ≠ b.session then localeCompare a.session b.session
  else if a.camera ≠ b.camera then localeCompare a.camera b.camera
  else localeCompare a.anomalyType b.anomalyType

/-- The stable sort applied to the scanned catalog. -/
def sortCatalog (l : List CatalogEntry) : List CatalogEntry :=
  jsSort (fun a b => decide (catalogCmp a b ≤ 0)) l

/-- The lexicographic order on `(session, camera, anomalyType)` in which
the sortedness of the catalog is stated. -/
def catalogTripleLe (x y : CatalogEntry) : Prop :=
  strLt x.session y.session = true ∨ (x.session = y.session ∧
    (strLt x.camera y.camera = true ∨ (x.camera = y.camera ∧
      (strLt x.anomalyType y.anomalyType = true ∨ x.anomalyType = y.anomalyType))))

/-- The configured data root (server.js line 14). -/
def DATA_PATH : String := "/home/shanks/Music/01-01-70-01-10-47-835"

/-- `scanForMetadataFiles` (server.js lines 115-181): recursive scan from
the data root followed by the catalog sort. -/
def scanForMetadataFiles (root : FSTree) : List CatalogEntry :=
  sortCatalog (scanDir root DATA_PATH "")

/-- An image directory listing entry (server.js lines 196-200). -/
structure ImageFile where
  name : String
  size : Nat
  modified : Nat
deriving DecidableEq, Repr

/-- The image filename extensions accepted by the listing filter
(server.js line 195), matched case-insensitively at the end of the name. -/
def imageExts : List String := [".jpg", ".jpeg", ".png", ".bmp", ".gif", ".webp"]

/-- The filename test `\.(jpg|jpeg|png|bmp|gif|webp)$` with the `i` flag:
the lower-cased name ends with one of the extensions. -/
def isImageName (name : String) : Bool :=
  imageExts.any fun ext => ext.data.isSuffixOf (name.data.map Char.toLower)

/-- `getImagesInDirectory` (server.js lines 184-212): `none` models a
missing directory (the listing call throws), an unreadable directory
throws as well, and both are caught and turned into the empty listing;
otherwise plain files with image extensions are returned sorted by name. -/
def getImagesInDirectory : Option FSTree → List ImageFile
  | none => []
  | some (.mk false _) => []
  | some (.mk true items) =>
    jsSort (fun a b => decide (localeCompare a.name b.name ≤ 0))
      (items.filterMap fun it =>
        match it with
        | .file name size mtime =>
          if isImageName name then some ⟨name, size, mtime⟩ else none
        | .subdir _ _ => none)

/-- The timestamp chain of the GPS-log conversion (server.js line 325):
`record.timestamp || record.time || record.datetime`. -/
def tsOfLogRecord (record : Row) : Option String :=
  jsOr (record.lookup "timestamp") (jsOr (record.lookup "time") (record.lookup "datetime"))

/-- One step of `standardizedGpsLog` (server.js lines 322-332): map a
GPS-log row to a standardized point (fixed provenance
`F2`/`gps_logger`/`tracking`, source `gps_log.csv`, 0-based record index,
original row) when neither coordinate is `NaN`.  `NaN` is modelled by
`none`, so the source's map-then-filter becomes a `filterMap`; note there
is no coordinate range check on this path. -/
def standardizeLogRow (q : Nat × Row) : Option GPSPoint :=
  match (jsOr (q.2.lookup "latitude") (q.2.lookup "lat")).bind parseFloatD,
      (jsOr (q.2.lookup "longitude")
        (jsOr (q.2.lookup "lng") (q.2.lookup "lon"))).bind parseFloatD with
  | some la, some ln =>
    some { latitude := la, longitude := ln, timestamp := tsOfLogRecord q.2,
           session := "F2", camera := "gps_logger", anomalyType := "tracking",
           recordIndex := q.1, source := some "gps_log.csv", originalRecord := q.2 }
  | _, _ => none

/-- The whole map-then-filter of server.js lines 322-332. -/
def standardizedGpsLog (gpsLogData : List Row) : List GPSPoint :=
  (enumerate 0 gpsLogData).filterMap standardizeLogRow

/-- The timestamp sort comparator (server.js lines 379-384): compare parsed
dates only when both points have a truthy timestamp, otherwise report the
pair equal.  Date parsing is the abstract parameter `pd`. -/
def tsCompare (pd : String → Int) (a b : GPSPoint) : Int :=
  if strTruthy a.timestamp ∧ strTruthy b.timestamp then
    pd (a.timestamp.getD "") - pd (b.timestamp.getD "")
  else 0

/-- The stable sort of combined GPS data by the timestamp comparator. -/
def sortByTimestamp (pd : String → Int) (l : List GPSPoint) : List GPSPoint :=
  jsSort (fun a b => decide (tsCompare pd a b ≤ 0)) l

/-- The per-point source tag added to extracted metadata points in the
combined endpoint (server.js lines 356-359). -/
def tagMetadataSource (p : GPSPoint) : GPSPoint :=
  { p with source := some "metadata.csv" }

/-- The combined GPS view (server.js lines 311-403): standardized GPS-log
points followed by source-tagged metadata points, sorted by timestamp. -/
def combinedGPSData (pd : String → Int) (gpsLogData : List Row)
    (metadataPoints : List GPSPoint) : List GPSPoint :=
  sortByTimestamp pd (standardizedGpsLog gpsLogData ++ metadataPoints.map tagMetadataSource)

/-- The default heatmap precision (server.js line 1000). -/
def defaultPrecision : Nat := 4

/-- Model of `parseFloat(x.toFixed(p))`: round the decimal to `p` digits,
with ties away from zero (the sign is stripped first, exactly as the
`toFixed` algorithm formats `-x` as `"-" ++ format x`). -/
def toFixedRound (p : Nat) (x : Dec) : Dec :=
  if x.e ≤ p then x
  else
    let k := x.e - p
    let n : Nat := (x.m.natAbs + 5 * 10 ^ (k - 1)) / 10 ^ k
    Dec.norm (if x.m < 0 then -(n : Int) else (n : Int)) p

/-- A heatmap accumulation cell (server.js lines 1037-1045); the JavaScript
`Set` fields are modelled by insertion-ordered duplicate-free lists. -/
structure HeatBucket where
  latitude : Dec
  longitude : Dec
  count : Nat
  sessions : List String
  cameras : List String
  anomalyTypes : List String
deriving DecidableEq, Repr

/-- Insertion into a JavaScript `Set` in insertion order. -/
def addToSet (s : List String) (x : String) : List String :=
  if x ∈ s then s else s ++ [x]

/-- The rounded-coordinate bucket key of a point (server.js lines 1033-1035). -/
def bucketKey (precision : Nat) (q : GPSPoint) : Dec × Dec :=
  (toFixedRound precision q.latitude, toFixedRound precision q.longitude)

/-- The key of a bucket. -/
def heatKey (b : HeatBucket) : Dec × Dec := (b.latitude, b.longitude)

/-- The in-place update of an existing bucket for one more point
(server.js lines 1048-1051): count up, provenance values added to the sets. -/
def bumpBucket (q : GPSPoint) (b : HeatBucket) : HeatBucket :=
  { b with
    count := b.count + 1,
    sessions := addToSet b.sessions q.session,
    cameras := addToSet b.cameras q.camera,
    anomalyTypes := addToSet b.anomalyTypes q.anomalyType }

/-- Processing of one point (server.js lines 1032-1052): create the bucket
on first sight of its key (object key insertion order = list append),
otherwise increment the existing bucket and extend its provenance sets. -/
def addPoint (precision : Nat) (bs : List HeatBucket) (q : GPSPoint) : List HeatBucket :=
  if bs.any fun b => decide (heatKey b = bucketKey precision q) then
    bs.map fun b => if heatKey b = bucketKey precision q then bumpBucket q b else b
  else
    bs ++ [{ latitude := (bucketKey precision q).1, longitude := (bucketKey precision q).2,
             count := 1, sessions := [q.session], cameras := [q.camera],
             anomalyTypes := [q.anomalyType] }]

/-- `heatmapData` (server.js lines 1029-1052): fold all points into the
keyed bucket accumulator. -/
def heatmapData (precision : Nat) (points : List GPSPoint) : List HeatBucket :=
  points.foldl (addPoint precision) []

/-! ### Helper lemmas about the sort and enumeration models -/

theorem length_jsInsert (le : α → α → Bool) (a : α) (l : List α) :
    (jsInsert le a l).length = l.length + 1 := by
  induction l with
  | nil => rfl
  | cons b bs ih =>
    rw [jsInsert]
    split
    · simp
    · simp [ih]

theorem length_jsSort (le : α → α → Bool) (l : List α) :
    (jsSort le l).length = l.length := by
  induction l with
  | nil => rfl
  | cons a as ih => rw [jsSort, length_jsInsert, ih, List.length_cons]

theorem mem_jsInsert {le : α → α → Bool} {a x : α} {l : List α} :
    x ∈ jsInsert le a l ↔ x = a ∨ x ∈ l := by
  induction l with
  | nil => simp [jsInsert]
  | cons b bs ih =>
    rw [jsInsert]
    split
    · simp [or_comm, or_left_comm]
    · simp only [List.mem_cons, ih]
      tauto

theorem mem_jsSort {le : α → α → Bool} {x : α} {l : List α} :
    x ∈ jsSort le l ↔ x ∈ l := by
  induction l with
  | nil => simp [jsSort]
  | cons a as ih => rw [jsSort]; simp [mem_jsInsert, ih]

theorem pairwise_jsInsert {le : α → α → Bool}
    (total : ∀ a b, le a b = true ∨ le b a = true)
    (trans : ∀ a b c, le a b = true → le b c = true → le a c = true)
    (a : α) {l : List α} (h : l.Pairwise fun x y => le x y = true) :
    (jsInsert le a l).Pairwise fun x y => le x y = true := by
  induction l with
  | nil => simp [jsInsert]
  | cons b bs ih =>
    rw [jsInsert]
    rcases List.pairwise_cons.1 h with ⟨hb, hbs⟩
    split
    · rename_i hab
      refine List.pairwise_cons.2 ⟨?_, h⟩
      intro x hx
      rcases List.mem_cons.1 hx with rfl | hx
      · exact hab
      · exact trans a b x hab (hb x hx)
    · rename_i hab
      refine List.pairwise_cons.2 ⟨?_, ih hbs⟩
      intro x hx
      rcases mem_jsInsert.1 hx with rfl | hx
      · rcases total x b with h' | h'
        · exact absurd h' hab
        · exact h'
      · exact hb x hx

theorem pairwise_jsSort {le : α → α → Bool}
    (total : ∀ a b, le a b = true ∨ le b a = true)
    (trans : ∀ a b c, le a b = true → le b c = true → le a c = true)
    (l : List α) : (jsSort le l).Pairwise fun x y => le x y = true := by
  induction l with
  | nil => simp [jsSort]
  | cons a as ih => exact pairwise_jsInsert total trans a ih

theorem jsInsert_of_le_head {le : α → α → Bool} {a : α} {l : List α}
    (h : ∀ b ∈ l.head?, le a b = true) : jsInsert le a l = a :: l := by
  cases l with
  | nil => rfl
  | cons b bs =>
    rw [jsInsert, if_pos (h b rfl)]

theorem jsSort_of_pairwise {le : α → α → Bool} {l : List α}
    (h : l.Pairwise fun x y => le x y = true) : jsSort le l = l := by
  induction l with
  | nil => rfl
  | cons a as ih =>
    rcases List.pairwise_cons.1 h with ⟨ha, has⟩
    rw [jsSort, ih has, jsInsert_of_le_head]
    intro b hb
    cases as with
    | nil => cases hb
    | cons c cs =>
      simp only [List.head?_cons, Option.mem_def, Option.some.injEq] at hb
      subst hb
      exact ha c (List.mem_cons_self c cs)

theorem enumerate_mem {l : List α} :
    ∀ {n i : Nat} {a : α}, (i, a) ∈ enumerate n l → n ≤ i ∧ l[i - n]? = some a := by
  induction l with
  | nil => intro n i a h; cases h
  | cons b bs ih =>
    intro n i a h
    rw [enumerate] at h
    rcases List.mem_cons.1 h with h | h
    · obtain ⟨rfl, rfl⟩ := Prod.mk.injEq .. ▸ h
      injection h with h1 h2
      simp
    · obtain ⟨hle, hget⟩ := ih h
      refine ⟨by omega, ?_⟩
      have : i - n = (i - (n + 1)) + 1 := by omega
      rw [this, List.getElem?_cons_succ]
      exact hget

theorem enumerate_fst_lt {l : List α} :
    ∀ {n : Nat}, (enumerate n l).Pairwise fun p q => p.1 < q.1 := by
  induction l with
  | nil => intro n; exact List.Pairwise.nil
  | cons b bs ih =>
    intro n
    rw [enumerate]
    refine List.pairwise_cons.2 ⟨?_, ih⟩
    intro q hq
    have := (enumerate_mem hq).1
    omega

theorem extractRow_spec {s c a : String} {q : Nat × Row} {p : GPSPoint}
    (h : extractRow s c a q = some p) :
    p.recordIndex = q.1 ∧ p.originalRecord = q.2 ∧
    findNumField q.2 latitudeFields = some p.latitude ∧
    findNumField q.2 longitudeFields = some p.longitude ∧
    p.timestamp = findStrField q.2 timestampFields ∧
    coordsInRange p.latitude p.longitude ∧
    p.session = s ∧ p.camera = c ∧ p.anomalyType = a ∧ p.source = none := by
  rw [extractRow] at h
  split at h
  · rename_i la ln hla hln
    split at h
    · rename_i hrange
      injection h with h
      subst h
      exact ⟨rfl, rfl, hla, hln, rfl, hrange, rfl, rfl, rfl, rfl⟩
    · cases h
  · cases h

theorem extractGPSData_mem {rows : List Row} {s c a : String} {p : GPSPoint}
    (h : p ∈ extractGPSData rows s c a) :
    rows[p.recordIndex]? = some p.originalRecord ∧
    findNumField p.originalRecord latitudeFields = some p.latitude ∧
    findNumField p.originalRecord longitudeFields = some p.longitude ∧
    p.timestamp = findStrField p.originalRecord timestampFields ∧
    coordsInRange p.latitude p.longitude ∧
    p.session = s ∧ p.camera = c ∧ p.anomalyType = a ∧ p.source = none := by
  rw [extractGPSData, List.mem_filterMap] at h
  obtain ⟨q, hmem, hf⟩ := h
  obtain ⟨hidx, horig, hlat, hlng, hts, hrange, hs, hc, ha, hsrc⟩ := extractRow_spec hf
  obtain ⟨-, hget⟩ := enumerate_mem (l := rows) (by rwa [← Prod.mk.eta (p := q)] at hmem)
  rw [Nat.sub_zero] at hget
  rw [hidx, horig]
  exact ⟨hget, hlat, hlng, hts, hrange, hs, hc, ha, hsrc⟩

theorem extractGPSData_pairwise (rows : List Row) (s c a : String) :
    (extractGPSData rows s c a).Pairwise fun p q => p.recordIndex < q.recordIndex := by
  rw [extractGPSData, List.pairwise_filterMap]
  refine (enumerate_fst_lt (n := 0)).imp ?_
  intro x y hxy p hp p' hp'
  rw [Option.mem_def] at hp hp'
  rw [(extractRow_spec hp).1, (extractRow_spec hp').1]
  exact hxy

theorem standardizeLogRow_spec {q : Nat × Row} {p : GPSPoint}
    (h : standardizeLogRow q = some p) :
    p.recordIndex = q.1 ∧ p.originalRecord = q.2 ∧
    p.session = "F2" ∧ p.camera = "gps_logger" ∧ p.anomalyType = "tracking" ∧
    p.source = some "gps_log.csv" ∧ p.timestamp = tsOfLogRecord q.2 := by
  rw [standardizeLogRow] at h
  split at h
  · rename_i la ln hla hln
    injection h with h
    subst h
    exact ⟨rfl, rfl, rfl, rfl, rfl, rfl, rfl⟩
  · cases h

theorem standardizedGpsLog_mem {log : List Row} {p : GPSPoint}
    (h : p ∈ standardizedGpsLog log) :
    log[p.recordIndex]? = some p.originalRecord ∧
    p.session = "F2" ∧ p.camera = "gps_logger" ∧ p.anomalyType = "tracking" ∧
    p.source = some "gps_log.csv" := by
  rw [standardizedGpsLog, List.mem_filterMap] at h
  obtain ⟨q, hmem, hf⟩ := h
  obtain ⟨hidx, horig, hs, hc, ha, hsrc, -⟩ := standardizeLogRow_spec hf
  obtain ⟨-, hget⟩ := enumerate_mem (l := log) (by rwa [← Prod.mk.eta (p := q)] at hmem)
  rw [Nat.sub_zero] at hget
  rw [hidx, horig]
  exact ⟨hget, hs, hc, ha, hsrc⟩

theorem findNumField_eq_find? (record : Row) :
    ∀ fields : List String, findNumField record fields =
      (fields.find? (numericCandidate record)).bind
        fun f => parseFloatD ((record.lookup f).getD "") := by
  intro fields
  induction fields with
  | nil => rfl
  | cons f rest ih =>
    rw [findNumField]
    cases hlook : record.lookup f with
    | none =>
      dsimp only
      rw [List.find?_cons_of_neg _ (by simp [numericCandidate, hlook])]
      exact ih
    | some v =>
      dsimp only
      by_cases hv : v = ""
      · subst hv
        rw [if_pos rfl, List.find?_cons_of_neg _ (by simp [numericCandidate, hlook])]
        exact ih
      · rw [if_neg hv]
        cases hp : parseFloatD v with
        | none =>
          dsimp only
          rw [List.find?_cons_of_neg _ (by simp [numericCandidate, hlook, hv, hp])]
          exact ih
        | some x =>
          rw [List.find?_cons_of_pos _ (by simp [numericCandidate, hlook, hv, hp])]
          simp [hlook, hp]

/-! ### The claims -/

/-- C2: `GPSExtractor` resolves each coordinate by scanning its ordered
candidate-field list and taking the first candidate whose value in the row
is present, non-empty and numerically parseable; in particular a valid
`latitude` column always beats the `lat` column, and every emitted point's
latitude is exactly the value resolved this way from its original row. -/
theorem claim_C2_first_candidate_wins :
    (∀ record : Row, findNumField record latitudeFields =
      (latitudeFields.find? (numericCandidate record)).bind
        fun f => parseFloatD ((record.lookup f).getD "")) ∧
    (∀ record : Row, findNumField record longitudeFields =
      (longitudeFields.find? (numericCandidate record)).bind
        fun f => parseFloatD ((record.lookup f).getD "")) ∧
    (∀ (record : Row) (v : String) (x : Dec), record.lookup "latitude" = some v →
      v ≠ "" → parseFloatD v = some x → findNumField record latitudeFields = some x) ∧
    (∀ (rows : List Row) (s c a : String) (p : GPSPoint), p ∈ extractGPSData rows s c a →
      findNumField p.originalRecord latitudeFields = some p.latitude) := by
  refine ⟨fun record => findNumField_eq_find? record latitudeFields,
    fun record => findNumField_eq_find? record longitudeFields, ?_, ?_⟩
  · intro record v x hlook hv hp
    rw [latitudeFields, findNumField, hlook]
    dsimp only
    rw [if_neg hv, hp]
  · intro rows s c a p hp
    exact (extractGPSData_mem hp).2.1

/-- Witness for C2: on a row where both `latitude` and `lat` hold valid
numbers, the resolved latitude is the `latitude` column's value. -/
theorem claim_C2_witness :
    [("lat", "7"), ("latitude", "5")].lookup "latitude" = some "5" ∧
    findNumField [("lat", "7"), ("latitude", "5")] latitudeFields = some ⟨5, 0⟩ :=
  ⟨by decide, claim_C2_first_candidate_wins.2.2.1 [("lat", "7"), ("latitude", "5")] "5" ⟨5, 0⟩
    (by decide) (by decide) (by decide)⟩

/-- C3: the `(session, camera, anomalyType)` triple of a discovered
metadata file is derived from the path segments of its directory relative
to the root: three or more segments give the first three, exactly two give
the two with `"general"`, fewer give `(seg0 or "unknown", "unknown",
"general")`; illustrated end to end on three concrete trees. -/
theorem claim_C3_triple_derivation :
    (∀ (parts : List String) (s c a : String) (rest : List String),
      parts = s :: c :: a :: rest → deriveTripleParts parts = (s, c, a)) ∧
    (∀ s c : String, deriveTripleParts [s, c] = (s, c, "general")) ∧
    (∀ s : String, deriveTripleParts [s] =
      (jsOrDefault s "unknown", "unknown", "general")) ∧
    scanForMetadataFiles (.mk true [.subdir "F2" (.mk true [.subdir "cam1" (.mk true
        [.subdir "lane" (.mk true [.file "metadata.csv" 0 0])])])]) =
      [{ path := "/home/shanks/Music/01-01-70-01-10-47-835/F2/cam1/lane/metadata.csv",
         relativePath := "F2/cam1/lane/metadata.csv", session := "F2", camera := "cam1",
         anomalyType := "lane", depth := 3 }] ∧
    scanForMetadataFiles (.mk true [.subdir "s1" (.mk true [.subdir "c1" (.mk true
        [.file "metadata.csv" 0 0])])]) =
      [{ path := "/home/shanks/Music/01-01-70-01-10-47-835/s1/c1/metadata.csv",
         relativePath := "s1/c1/metadata.csv", session := "s1", camera := "c1",
         anomalyType := "general", depth := 2 }] ∧
    scanForMetadataFiles (.mk true [.file "metadata.csv" 0 0]) =
      [{ path := "/home/shanks/Music/01-01-70-01-10-47-835/metadata.csv",
         relativePath := "metadata.csv", session := "unknown", camera := "unknown",
         anomalyType := "general", depth := 1 }] := by
  refine ⟨?_, ?_, ?_, by decide, by decide, by decide⟩
  · intro parts s c a rest hparts
    subst hparts
    rw [deriveTripleParts, if_pos (by simp)]
    rfl
  · intro s c
    rfl
  · intro s
    rfl

/-- Witness for C3: the triple of a four-segment path takes the first three. -/
theorem claim_C3_witness :
    deriveTripleParts ["s", "c", "a", "extra"] = ("s", "c", "a") :=
  claim_C3_triple_derivation.1 ["s", "c", "a", "extra"] "s" "c" "a" ["extra"] rfl

/-- C8: a directory read failure at any level only skips that subtree:
scanning a listing with an unreadable subdirectory equals scanning the
same listing with that subdirectory removed, both at the item level (any
depth, since the equation holds for every current path) and through
`scanForMetadataFiles`; the scan itself is a total function, so it never
fails outright. -/
theorem claim_C8_unreadable_subtree_skipped :
    (∀ (pre post : List FSItem) (n : String) (cs : List FSItem) (d r : String),
      scanItems (pre ++ FSItem.subdir n (FSTree.mk false cs) :: post) d r =
        scanItems (pre ++ post) d r) ∧
    (∀ (pre post : List FSItem) (n : String) (cs : List FSItem),
      scanForMetadataFiles
          (FSTree.mk true (pre ++ FSItem.subdir n (FSTree.mk false cs) :: post)) =
        scanForMetadataFiles (FSTree.mk true (pre ++ post))) := by
  have h1 : ∀ (pre post : List FSItem) (n : String) (cs : List FSItem) (d r : String),
      scanItems (pre ++ FSItem.subdir n (FSTree.mk false cs) :: post) d r =
        scanItems (pre ++ post) d r := by
    intro pre post n cs d r
    induction pre with
    | nil =>
      rw [List.nil_append, List.nil_append, scanItems, scanItem, scanDir]
      simp
    | cons i pre ih =>
      rw [List.cons_append, List.cons_append, scanItems, scanItems, ih]
  refine ⟨h1, ?_⟩
  intro pre post n cs
  rw [scanForMetadataFiles, scanForMetadataFiles, scanDir, scanDir, if_pos rfl, if_pos rfl,
    h1]

/-- C9: listing images of a missing or unreadable directory returns the
empty sequence rather than an error, indistinguishable from listing an
existing directory with no images. -/
theorem claim_C9_missing_dir_empty_listing :
    getImagesInDirectory none = [] ∧
    (∀ items : List FSItem, getImagesInDirectory (some (.mk false items)) = []) ∧
    getImagesInDirectory none = getImagesInDirectory (some (.mk true [])) := by
  exact ⟨rfl, fun items => rfl, rfl⟩

/-- C10: every point converted from the GPS log carries the fixed
provenance `F2`/`gps_logger`/`tracking`, the source tag `gps_log.csv`, and
a record index addressing its full original row in the log. -/
theorem claim_C10_log_provenance :
    ∀ (log : List Row) (p : GPSPoint), p ∈ standardizedGpsLog log →
      p.session = "F2" ∧ p.camera = "gps_logger" ∧ p.anomalyType = "tracking" ∧
      p.source = some "gps_log.csv" ∧ log[p.recordIndex]? = some p.originalRecord := by
  intro log p h
  obtain ⟨hget, hs, hc, ha, hsrc⟩ := standardizedGpsLog_mem h
  exact ⟨hs, hc, ha, hsrc, hget⟩

/-- Witness for C10 at a concrete one-row log. -/
theorem claim_C10_witness :
    ({ latitude := ⟨1, 0⟩, longitude := ⟨2, 0⟩, timestamp := none, session := "F2",
       camera := "gps_logger", anomalyType := "tracking", recordIndex := 0,
       source := some "gps_log.csv",
       originalRecord := [("latitude", "1"), ("longitude", "2")] } : GPSPoint) ∈
      standardizedGpsLog [[("latitude", "1"), ("longitude", "2")]] ∧
    (("F2" : String) = "F2" ∧ ("gps_logger" : String) = "gps_logger" ∧
      ("tracking" : String) = "tracking" ∧
      (some "gps_log.csv" : Option String) = some "gps_log.csv" ∧
      [[("latitude", "1"), ("longitude", "2")]][(0 : Nat)]? =
        some [("latitude", "1"), ("longitude", "2")]) :=
  ⟨by decide, claim_C10_log_provenance [[("latitude", "1"), ("longitude", "2")]]
    { latitude := ⟨1, 0⟩, longitude := ⟨2, 0⟩, timestamp := none, session := "F2",
      camera := "gps_logger", anomalyType := "tracking", recordIndex := 0,
      source := some "gps_log.csv",
      originalRecord := [("latitude", "1"), ("longitude", "2")] } (by decide)⟩

/-- C6: `GPSExtractor` preserves input row order (record indices strictly
increase along the output), each point's `recordIndex` addresses its
originating row in the input, and the two-row example with one bad row
yields exactly the one point with `recordIndex` 0. -/
theorem claim_C6_row_order_and_indices :
    (∀ (rows : List Row) (s c a : String),
      (extractGPSData rows s c a).Pairwise fun p q => p.recordIndex < q.recordIndex) ∧
    (∀ (rows : List Row) (s c a : String) (p : GPSPoint), p ∈ extractGPSData rows s c a →
      rows[p.recordIndex]? = some p.originalRecord) ∧
    extractGPSData [[("lat", "10.0"), ("lng", "20.0")], [("lat", "bad"), ("lng", "20.0")]]
        "A" "cam1" "general" =
      [{ latitude := ⟨10, 0⟩, longitude := ⟨20, 0⟩, timestamp := none, session := "A",
         camera := "cam1", anomalyType := "general", recordIndex := 0, source := none,
         originalRecord := [("lat", "10.0"), ("lng", "20.0")] }] :=
  ⟨extractGPSData_pairwise, fun _ _ _ _ _ hp => (extractGPSData_mem hp).1, by decide⟩

/-- Witness for C6: applying the record-index property at the concrete
two-row example. -/
theorem claim_C6_witness :
    ({ latitude := ⟨10, 0⟩, longitude := ⟨20, 0⟩, timestamp := none, session := "A",
       camera := "cam1", anomalyType := "general", recordIndex := 0, source := none,
       originalRecord := [("lat", "10.0"), ("lng", "20.0")] } : GPSPoint) ∈
      extractGPSData [[("lat", "10.0"), ("lng", "20.0")], [("lat", "bad"), ("lng", "20.0")]]
        "A" "cam1" "general" ∧
    [[("lat", "10.0"), ("lng", "20.0")], [("lat", "bad"), ("lng", "20.0")]][(0 : Nat)]? =
      some [("lat", "10.0"), ("lng", "20.0")] :=
  ⟨by decide, claim_C6_row_order_and_indices.2.1
    [[("lat", "10.0"), ("lng", "20.0")], [("lat", "bad"), ("lng", "20.0")]]
    "A" "cam1" "general"
    { latitude := ⟨10, 0⟩, longitude := ⟨20, 0⟩, timestamp := none, session := "A",
      camera := "cam1", anomalyType := "general", recordIndex := 0, source := none,
      originalRecord := [("lat", "10.0"), ("lng", "20.0")] } (by decide)⟩

/-- C4: the combined-view sort comparator orders two points by parsed
timestamp (ascending) only when both carry a truthy timestamp; whenever
either side lacks one it reports the pair equal, so under the stable sort
such points keep their pre-sort relative order (in particular a list with
no timestamps at all is returned unchanged), and the comparator is not
even transitive-as-equality, so the result is only best-effort
chronological, not a total chronological order. -/
theorem claim_C4_best_effort_timestamp_sort :
    (∀ (pd : String → Int) (a b : GPSPoint),
      strTruthy a.timestamp = false ∨ strTruthy b.timestamp = false →
      tsCompare pd a b = 0) ∧
    (∀ (pd : String → Int) (a b : GPSPoint) (ta tb : String),
      a.timestamp = some ta → ta ≠ "" → b.timestamp = some tb → tb ≠ "" →
      tsCompare pd a b = pd ta - pd tb) ∧
    (∀ (pd : String → Int) (l : List GPSPoint),
      (∀ p ∈ l, strTruthy p.timestamp = false) → sortByTimestamp pd l = l) ∧
    (∃ (pd : String → Int) (x y z : GPSPoint),
      tsCompare pd x y = 0 ∧ tsCompare pd y z = 0 ∧ 0 < tsCompare pd x z) := by
  refine ⟨?_, ?_, ?_, ?_⟩
  · intro pd a b h
    rw [tsCompare, if_neg]
    rintro ⟨h1, h2⟩
    rcases h with h | h
    · rw [h] at h1; cases h1
    · rw [h] at h2; cases h2
  · intro pd a b ta tb ha hta hb htb
    rw [tsCompare, if_pos ⟨by simp [strTruthy, ha, hta], by simp [strTruthy, hb, htb]⟩,
      ha, hb]
    rfl
  · intro pd l h
    rw [sortByTimestamp]
    apply jsSort_of_pairwise
    apply List.pairwise_of_forall_mem_list
    intro x hx y hy
    have : tsCompare pd x y = 0 := by
      rw [tsCompare, if_neg]
      rintro ⟨h1, -⟩
      rw [h x hx] at h1
      cases h1
    simp [this]
  · refine ⟨fun s => (s.length : Int),
      { latitude := ⟨0, 0⟩, longitude := ⟨0, 0⟩, timestamp := some "aa", session := "",
        camera := "", anomalyType := "", recordIndex := 0, source := none,
        originalRecord := [] },
      { latitude := ⟨0, 0⟩, longitude := ⟨0, 0⟩, timestamp := none, session := "",
        camera := "", anomalyType := "", recordIndex := 0, source := none,
        originalRecord := [] },
      { latitude := ⟨0, 0⟩, longitude := ⟨0, 0⟩, timestamp := some "a", session := "",
        camera := "", anomalyType := "", recordIndex := 0, source := none,
        originalRecord := [] }, by decide, by decide, by decide⟩

/-- Witness for C4: a pair with a missing timestamp compares equal, and a
singleton no-timestamp list is left unchanged by the sort. -/
theorem claim_C4_witness :
    (strTruthy (none : Option String) = false ∨
      strTruthy (none : Option String) = false) ∧
    tsCompare (fun _ => 0)
      { latitude := ⟨0, 0⟩, longitude := ⟨0, 0⟩, timestamp := some "t", session := "",
        camera := "", anomalyType := "", recordIndex := 0, source := none,
        originalRecord := [] }
      { latitude := ⟨0, 0⟩, longitude := ⟨0, 0⟩, timestamp := none, session := "",
        camera := "", anomalyType := "", recordIndex := 0, source := none,
        originalRecord := [] } = 0 :=
  ⟨Or.inl rfl, claim_C4_best_effort_timestamp_sort.1 (fun _ => 0)
    { latitude := ⟨0, 0⟩, longitude := ⟨0, 0⟩, timestamp := some "t", session := "",
      camera := "", anomalyType := "", recordIndex := 0, source := none,
      originalRecord := [] }
    { latitude := ⟨0, 0⟩, longitude := ⟨0, 0⟩, timestamp := none, session := "",
      camera := "", anomalyType := "", recordIndex := 0, source := none,
      originalRecord := [] } (Or.inr rfl)⟩

theorem charListLt_irrefl : ∀ x : List Char, charListLt x x = false := by
  intro x
  induction x with
  | nil => rfl
  | cons a as ih =>
    rw [charListLt, if_neg (by omega), if_neg (by omega)]
    exact ih

theorem charListLt_trans : ∀ {x y z : List Char},
    charListLt x y = true → charListLt y z = true → charListLt x z = true := by
  intro x
  induction x with
  | nil =>
    intro y z hxy hyz
    cases y with
    | nil => cases hxy
    | cons b bs =>
      cases z with
      | nil => cases hyz
      | cons c cs => rfl
  | cons a as ih =>
    intro y z hxy hyz
    cases y with
    | nil => cases hxy
    | cons b bs =>
      cases z with
      | nil => cases hyz
      | cons c cs =>
        rw [charListLt] at hxy hyz ⊢
        by_cases hab1 : a.toNat < b.toNat
        · by_cases hbc1 : b.toNat < c.toNat
          · rw [if_pos (by omega)]
          · rw [if_neg hbc1] at hyz
            by_cases hbc2 : c.toNat < b.toNat
            · rw [if_pos hbc2] at hyz; cases hyz
            · rw [if_pos (by omega)]
        · rw [if_neg hab1] at hxy
          by_cases hab2 : b.toNat < a.toNat
          · rw [if_pos hab2] at hxy; cases hxy
          · rw [if_neg hab2] at hxy
            by_cases hbc1 : b.toNat < c.toNat
            · rw [if_pos (by omega)]
            · rw [if_neg hbc1] at hyz
              by_cases hbc2 : c.toNat < b.toNat
              · rw [if_pos hbc2] at hyz; cases hyz
              · rw [if_neg hbc2] at hyz
                rw [if_neg (by omega), if_neg (by omega)]
                exact ih hxy hyz

theorem charListLt_eq_of_both_false : ∀ {x y : List Char},
    charListLt x y = false → charListLt y x = false → x = y := by
  intro x
  induction x with
  | nil =>
    intro y h1 _
    cases y with
    | nil => rfl
    | cons b bs => cases h1
  | cons a as ih =>
    intro y h1 h2
    cases y with
    | nil => cases h2
    | cons b bs =>
      rw [charListLt] at h1 h2
      by_cases hab : a.toNat < b.toNat
      · rw [if_pos hab] at h1; cases h1
      · by_cases hba : b.toNat < a.toNat
        · rw [if_pos hba] at h2; cases h2
        · rw [if_neg hab, if_neg hba] at h1
          rw [if_neg hba, if_neg hab] at h2
          have htn : a.toNat = b.toNat := by omega
          have hchar : a = b := Char.ext (UInt32.toNat.inj htn)
          rw [hchar, ih h1 h2]

theorem strLt_irrefl (x : String) : strLt x x = false := charListLt_irrefl x.data

theorem strLt_trans {x y z : String} (h1 : strLt x y = true) (h2 : strLt y z = true) :
    strLt x z = true := charListLt_trans h1 h2

theorem strLt_eq_of_both_false {x y : String} (h1 : strLt x y = false)
    (h2 : strLt y x = false) : x = y := by
  cases x with
  | mk xd =>
  cases y with
  | mk yd => exact congrArg String.mk (charListLt_eq_of_both_false h1 h2)

theorem strLt_trichotomy (x y : String) :
    strLt x y = true ∨ x = y ∨ strLt y x = true := by
  cases hxy : strLt x y with
  | true => exact Or.inl rfl
  | false =>
    cases hyx : strLt y x with
    | true => exact Or.inr (Or.inr rfl)
    | false => exact Or.inr (Or.inl (strLt_eq_of_both_false hxy hyx))

theorem localeCompare_nonpos (x y : String) :
    localeCompare x y ≤ 0 ↔ (strLt x y = true ∨ x = y) := by
  rw [localeCompare]
  split_ifs with h1 h2
  · simp [h1]
  · simp [h2]
  · exact iff_of_false (by norm_num) (by rintro (h | h); exacts [h1 h, h2 h])

theorem catalogCmp_nonpos (a b : CatalogEntry) :
    catalogCmp a b ≤ 0 ↔ catalogTripleLe a b := by
  rw [catalogCmp, catalogTripleLe]
  by_cases hs : a.session = b.session
  · rw [if_neg (not_not_intro hs)]
    by_cases hc : a.camera = b.camera
    · rw [if_neg (not_not_intro hc), localeCompare_nonpos]
      constructor
      · rintro (h | h)
        · exact Or.inr ⟨hs, Or.inr ⟨hc, Or.inl h⟩⟩
        · exact Or.inr ⟨hs, Or.inr ⟨hc, Or.inr h⟩⟩
      · rintro (h | ⟨-, h | ⟨-, h | h⟩⟩)
        · rw [hs, strLt_irrefl] at h; cases h
        · rw [hc, strLt_irrefl] at h; cases h
        · exact Or.inl h
        · exact Or.inr h
    · rw [if_pos hc, localeCompare_nonpos]
      constructor
      · rintro (h | h)
        · exact Or.inr ⟨hs, Or.inl h⟩
        · exact absurd h hc
      · rintro (h | ⟨-, h | ⟨h, -⟩⟩)
        · rw [hs, strLt_irrefl] at h; cases h
        · exact Or.inl h
        · exact absurd h hc
  · rw [if_pos hs, localeCompare_nonpos]
    constructor
    · rintro (h | h)
      · exact Or.inl h
      · exact absurd h hs
    · rintro (h | ⟨h, -⟩)
      · exact Or.inl h
      · exact absurd h hs

theorem catalogTripleLe_trans {a b c : CatalogEntry}
    (h1 : catalogTripleLe a b) (h2 : catalogTripleLe b c) : catalogTripleLe a c := by
  rw [catalogTripleLe] at h1 h2 ⊢
  rcases h1 with h1 | ⟨e1, h1⟩
  · rcases h2 with h2 | ⟨e2, -⟩
    · exact Or.inl (strLt_trans h1 h2)
    · exact Or.inl (e2 ▸ h1)
  · rcases h2 with h2 | ⟨e2, h2⟩
    · exact Or.inl (e1 ▸ h2)
    · refine Or.inr ⟨e1.trans e2, ?_⟩
      rcases h1 with h1 | ⟨f1, h1⟩
      · rcases h2 with h2 | ⟨f2, -⟩
        · exact Or.inl (strLt_trans h1 h2)
        · exact Or.inl (f2 ▸ h1)
      · rcases h2 with h2 | ⟨f2, h2⟩
        · exact Or.inl (f1 ▸ h2)
        · refine Or.inr ⟨f1.trans f2, ?_⟩
          rcases h1 with h1 | h1
          · rcases h2 with h2 | h2
            · exact Or.inl (strLt_trans h1 h2)
            · exact Or.inl (h2 ▸ h1)
          · rcases h2 with h2 | h2
            · exact Or.inl (h1 ▸ h2)
            · exact Or.inr (h1.trans h2)

theorem catalogTripleLe_total (a b : CatalogEntry) :
    catalogTripleLe a b ∨ catalogTripleLe b a := by
  rw [catalogTripleLe, catalogTripleLe]
  rcases strLt_trichotomy a.session b.session with h | h | h
  · exact Or.inl (Or.inl h)
  · rcases strLt_trichotomy a.camera b.camera with h' | h' | h'
    · exact Or.inl (Or.inr ⟨h, Or.inl h'⟩)
    · rcases strLt_trichotomy a.anomalyType b.anomalyType with h'' | h'' | h''
      · exact Or.inl (Or.inr ⟨h, Or.inr ⟨h', Or.inl h''⟩⟩)
      · exact Or.inl (Or.inr ⟨h, Or.inr ⟨h', Or.inr h''⟩⟩)
      · exact Or.inr (Or.inr ⟨h.symm, Or.inr ⟨h'.symm, Or.inl h''⟩⟩)
    · exact Or.inr (Or.inr ⟨h.symm, Or.inl h'⟩)
  · exact Or.inr (Or.inl h)

/-- C5: the scanned catalog is returned sorted ascending: any entry that
appears before another is less than or equal to it in the lexicographic
order on `(session, camera, anomalyType)` (string comparison modelled by
codepoint order). -/
theorem claim_C5_catalog_sorted (l : List CatalogEntry) :
    (sortCatalog l).Pairwise catalogTripleLe := by
  rw [sortCatalog]
  have h := @pairwise_jsSort CatalogEntry (fun a b => decide (catalogCmp a b ≤ 0))
    (fun a b => by
      rcases catalogTripleLe_total a b with h | h
      · exact Or.inl (decide_eq_true ((catalogCmp_nonpos a b).2 h))
      · exact Or.inr (decide_eq_true ((catalogCmp_nonpos b a).2 h)))
    (fun a b c hab hbc => decide_eq_true ((catalogCmp_nonpos a c).2
      (catalogTripleLe_trans ((catalogCmp_nonpos a b).1 (of_decide_eq_true hab))
        ((catalogCmp_nonpos b c).1 (of_decide_eq_true hbc))))) l
  exact h.imp fun hab => (catalogCmp_nonpos _ _).1 (of_decide_eq_true hab)

theorem coordsInRange_toRat {la ln : Dec} (h : coordsInRange la ln) :
    -90 ≤ la.toRat ∧ la.toRat ≤ 90 ∧ -180 ≤ ln.toRat ∧ ln.toRat ≤ 180 := by
  obtain ⟨h1, h2, h3, h4⟩ := h
  rw [Dec.le_iff_toRat] at h1 h2 h3 h4
  have e90 : (Dec.ofInt 90).toRat = 90 := by norm_num [Dec.ofInt, Dec.toRat]
  have e90' : (Dec.ofInt (-90)).toRat = -90 := by norm_num [Dec.ofInt, Dec.toRat]
  have e180 : (Dec.ofInt 180).toRat = 180 := by norm_num [Dec.ofInt, Dec.toRat]
  have e180' : (Dec.ofInt (-180)).toRat = -180 := by norm_num [Dec.ofInt, Dec.toRat]
  rw [e90'] at h1
  rw [e90] at h2
  rw [e180'] at h3
  rw [e180] at h4
  exact ⟨h1, h2, h3, h4⟩

/-- C1 counterexample: the combined view does contain an out-of-range
point.  A GPS-log record with latitude `999` passes the log conversion
(which only drops `NaN` coordinates, with no range check), so the claim
that every point of the combined output has latitude in `[-90, 90]` is
false. -/
theorem claim_C1_counterexample :
    ¬ (∀ p ∈ combinedGPSData (fun _ => 0) [[("latitude", "999"), ("longitude", "0")]] [],
        -90 ≤ p.latitude.toRat ∧ p.latitude.toRat ≤ 90) := by
  intro h
  have hp := h
    { latitude := ⟨999, 0⟩, longitude := ⟨0, 0⟩, timestamp := none, session := "F2",
      camera := "gps_logger", anomalyType := "tracking", recordIndex := 0,
      source := some "gps_log.csv",
      originalRecord := [("latitude", "999"), ("longitude", "0")] } (by decide)
  have h90 := hp.2
  norm_num [Dec.toRat] at h90

/-- C1 (amended): every point extracted from metadata rows has latitude in
`[-90, 90]` and longitude in `[-180, 180]` (out-of-range metadata rows are
silently dropped), while points converted from the GPS log are only
filtered for numeric parseability and are not range checked; the combined
output length equals the number of log records with parseable coordinates
plus the number of supplied metadata points, and every combined point
carries a source tag in `{gps_log.csv, metadata.csv}`. -/
theorem claim_C1_amended_ranges_and_merge (pd : String → Int) (log : List Row)
    (meta : List GPSPoint) (rows : List Row) (s c a : String) :
    (∀ p ∈ extractGPSData rows s c a,
      -90 ≤ p.latitude.toRat ∧ p.latitude.toRat ≤ 90 ∧
      -180 ≤ p.longitude.toRat ∧ p.longitude.toRat ≤ 180) ∧
    (combinedGPSData pd log meta).length =
      (standardizedGpsLog log).length + meta.length ∧
    (∀ p ∈ combinedGPSData pd log meta,
      p.source = some "gps_log.csv" ∨ p.source = some "metadata.csv") := by
  refine ⟨?_, ?_, ?_⟩
  · intro p hp
    exact coordsInRange_toRat (extractGPSData_mem hp).2.2.2.2.1
  · rw [combinedGPSData, sortByTimestamp, length_jsSort, List.length_append,
      List.length_map]
  · intro p hp
    rw [combinedGPSData, sortByTimestamp, mem_jsSort] at hp
    rcases List.mem_append.1 hp with hp | hp
    · exact Or.inl (standardizedGpsLog_mem hp).2.2.2.2
    · obtain ⟨q, -, rfl⟩ := List.mem_map.1 hp
      exact Or.inr rfl

/-- Witness for C1 (amended) at the concrete two-row metadata example and
a one-record log. -/
theorem claim_C1_witness :
    ({ latitude := ⟨10, 0⟩, longitude := ⟨20, 0⟩, timestamp := none, session := "A",
       camera := "cam1", anomalyType := "general", recordIndex := 0, source := none,
       originalRecord := [("lat", "10.0"), ("lng", "20.0")] } : GPSPoint) ∈
      extractGPSData [[("lat", "10.0"), ("lng", "20.0")], [("lat", "bad"), ("lng", "20.0")]]
        "A" "cam1" "general" ∧
    (-90 ≤ (Dec.mk 10 0).toRat ∧ (Dec.mk 10 0).toRat ≤ 90 ∧
      -180 ≤ (Dec.mk 20 0).toRat ∧ (Dec.mk 20 0).toRat ≤ 180) :=
  ⟨by decide, (claim_C1_amended_ranges_and_merge (fun _ => 0) [] []
    [[("lat", "10.0"), ("lng", "20.0")], [("lat", "bad"), ("lng", "20.0")]]
    "A" "cam1" "general").1
    { latitude := ⟨10, 0⟩, longitude := ⟨20, 0⟩, timestamp := none, session := "A",
      camera := "cam1", anomalyType := "general", recordIndex := 0, source := none,
      originalRecord := [("lat", "10.0"), ("lng", "20.0")] } (by decide)⟩

theorem heatKey_bumpBucket (q : GPSPoint) (b : HeatBucket) :
    heatKey (bumpBucket q b) = heatKey b := rfl

theorem count_bumpBucket (q : GPSPoint) (b : HeatBucket) :
    (bumpBucket q b).count = b.count + 1 := rfl

theorem sum_counts_bump (q : GPSPoint) (k : Dec × Dec) :
    ∀ bs : List HeatBucket, (bs.map heatKey).Nodup → (∃ b ∈ bs, heatKey b = k) →
      ((bs.map fun b => if heatKey b = k then bumpBucket q b else b).map
          HeatBucket.count).sum =
        (bs.map HeatBucket.count).sum + 1 := by
  intro bs
  induction bs with
  | nil =>
    rintro - ⟨b, hb, -⟩
    cases hb
  | cons b bs ih =>
    intro h1 hex
    by_cases hb : heatKey b = k
    · have htail : ∀ b' ∈ bs, heatKey b' ≠ k := by
        intro b' hb' hk
        exact (List.nodup_cons.1 h1).1
          (hb ▸ hk ▸ List.mem_map_of_mem heatKey hb')
      have htl : (bs.map fun b' => if heatKey b' = k then bumpBucket q b' else b') = bs := by
        calc (bs.map fun b' => if heatKey b' = k then bumpBucket q b' else b')
            = bs.map id :=
              List.map_congr_left fun b' hb' => by rw [if_neg (htail b' hb')]; rfl
          _ = bs := List.map_id bs
      rw [List.map_cons, if_pos hb, htl, List.map_cons, List.map_cons, List.sum_cons,
        List.sum_cons, count_bumpBucket]
      omega
    · have hex' : ∃ b' ∈ bs, heatKey b' = k := by
        obtain ⟨b', hb', hk⟩ := hex
        rcases List.mem_cons.1 hb' with rfl | hb'
        · exact absurd hk hb
        · exact ⟨b', hb', hk⟩
      rw [List.map_cons, if_neg hb, List.map_cons, List.map_cons, List.sum_cons,
        List.sum_cons, ih (List.nodup_cons.1 h1).2 hex']
      omega

theorem addPoint_inv (prec : Nat) (bs : List HeatBucket) (q : GPSPoint)
    (done : List GPSPoint)
    (h1 : (bs.map heatKey).Nodup)
    (h2 : ∀ b ∈ bs, b.count = done.countP fun r => decide (bucketKey prec r = heatKey b))
    (h3 : (bs.map HeatBucket.count).sum = done.length)
    (h4 : ∀ r ∈ done, ∃ b ∈ bs, heatKey b = bucketKey prec r) :
    ((addPoint prec bs q).map heatKey).Nodup ∧
    (∀ b ∈ addPoint prec bs q,
      b.count = (done ++ [q]).countP fun r => decide (bucketKey prec r = heatKey b)) ∧
    ((addPoint prec bs q).map HeatBucket.count).sum = (done ++ [q]).length ∧
    (∀ r ∈ done ++ [q], ∃ b ∈ addPoint prec bs q, heatKey b = bucketKey prec r) := by
  rw [addPoint]
  by_cases hex : ∃ b ∈ bs, heatKey b = bucketKey prec q
  · rw [if_pos (by simpa using hex)]
    have hkeys : ((bs.map fun b => if heatKey b = bucketKey prec q then bumpBucket q b
        else b).map heatKey) = bs.map heatKey := by
      rw [List.map_map]
      apply List.map_congr_left
      intro b _
      by_cases hb : heatKey b = bucketKey prec q
      · simp [hb, Function.comp, heatKey_bumpBucket]
      · simp [hb, Function.comp]
    refine ⟨by rw [hkeys]; exact h1, ?_, ?_, ?_⟩
    · intro b' hb'
      obtain ⟨b, hb, rfl⟩ := List.mem_map.1 hb'
      by_cases hb2 : heatKey b = bucketKey prec q
      · rw [if_pos hb2, List.countP_append, count_bumpBucket, heatKey_bumpBucket,
          h2 b hb]
        have : List.countP (fun r => decide (bucketKey prec r = heatKey b)) [q] = 1 := by
          simp [List.countP_cons, hb2.symm]
        rw [this]
      · rw [if_neg hb2, List.countP_append, h2 b hb]
        have : List.countP (fun r => decide (bucketKey prec r = heatKey b)) [q] = 0 := by
          simp [List.countP_cons]
          exact fun h => hb2 h.symm
        rw [this, Nat.add_zero]
    · rw [sum_counts_bump q (bucketKey prec q) bs h1 hex, h3, List.length_append]
      rfl
    · intro r hr
      rcases List.mem_append.1 hr with hr | hr
      · obtain ⟨b, hb, hkb⟩ := h4 r hr
        refine ⟨if heatKey b = bucketKey prec q then bumpBucket q b else b,
          List.mem_map_of_mem _ hb, ?_⟩
        by_cases hb2 : heatKey b = bucketKey prec q
        · rw [if_pos hb2, heatKey_bumpBucket]; exact hkb
        · rw [if_neg hb2]; exact hkb
      · have hrq : r = q := by simpa using hr
        subst hrq
        obtain ⟨b, hb, hkb⟩ := hex
        refine ⟨if heatKey b = bucketKey prec r then bumpBucket r b else b,
          List.mem_map_of_mem _ hb, ?_⟩
        rw [if_pos hkb, heatKey_bumpBucket]
        exact hkb
  · rw [if_neg (by simpa using hex)]
    have hnone : ∀ b ∈ bs, heatKey b ≠ bucketKey prec q := by
      intro b hb hk
      exact hex ⟨b, hb, hk⟩
    have hknew : heatKey
        { latitude := (bucketKey prec q).1, longitude := (bucketKey prec q).2,
          count := 1, sessions := [q.session], cameras := [q.camera],
          anomalyTypes := [q.anomalyType] } = bucketKey prec q := rfl
    refine ⟨?_, ?_, ?_, ?_⟩
    · rw [List.map_append, List.nodup_append]
      refine ⟨h1, by simp, ?_⟩
      intro x hx
      simp only [List.map_cons, List.map_nil, List.mem_singleton]
      intro hx1
      obtain ⟨b, hb, rfl⟩ := List.mem_map.1 hx
      exact hnone b hb (by rw [hx1]; exact hknew.symm ▸ rfl)
    · intro b' hb'
      rcases List.mem_append.1 hb' with hb' | hb'
      · rw [List.countP_append, h2 b' hb']
        have : List.countP (fun r => decide (bucketKey prec r = heatKey b')) [q] = 0 := by
          simp [List.countP_cons]
          exact fun h => hnone b' hb' h.symm
        rw [this, Nat.add_zero]
      · have hb'' : b' = ⟨(bucketKey prec q).1, (bucketKey prec q).2, 1,
            [q.session], [q.camera], [q.anomalyType]⟩ := by
          simpa using hb'
        subst hb''
        rw [List.countP_append]
        have hz : List.countP (fun r => decide (bucketKey prec r = bucketKey prec q))
            done = 0 := by
          rw [List.countP_eq_zero]
          intro r hr hcr
          obtain ⟨b, hb, hkb⟩ := h4 r hr
          rw [decide_eq_true_eq] at hcr
          exact hnone b hb (by rw [hkb, hcr])
        have ho : List.countP (fun r => decide (bucketKey prec r = bucketKey prec q))
            [q] = 1 := by simp [List.countP_cons]
        rw [hknew, hz, ho]
    · rw [List.map_append, List.sum_append, h3, List.length_append]
      rfl
    · intro r hr
      rcases List.mem_append.1 hr with hr | hr
      · obtain ⟨b, hb, hkb⟩ := h4 r hr
        exact ⟨b, List.mem_append_left _ hb, hkb⟩
      · have hrq : r = q := by simpa using hr
        subst hrq
        exact ⟨_, List.mem_append_right _ (List.mem_singleton_self _), hknew⟩

theorem heatmap_fold_inv (prec : Nat) :
    ∀ (pts : List GPSPoint) (bs : List HeatBucket) (done : List GPSPoint),
      (bs.map heatKey).Nodup →
      (∀ b ∈ bs, b.count = done.countP fun r => decide (bucketKey prec r = heatKey b)) →
      (bs.map HeatBucket.count).sum = done.length →
      (∀ r ∈ done, ∃ b ∈ bs, heatKey b = bucketKey prec r) →
      (((pts.foldl (addPoint prec) bs).map heatKey).Nodup ∧
        (∀ b ∈ pts.foldl (addPoint prec) bs,
          b.count = (done ++ pts).countP fun r => decide (bucketKey prec r = heatKey b)) ∧
        ((pts.foldl (addPoint prec) bs).map HeatBucket.count).sum = (done ++ pts).length ∧
        (∀ r ∈ done ++ pts, ∃ b ∈ pts.foldl (addPoint prec) bs,
          heatKey b = bucketKey prec r)) := by
  intro pts
  induction pts with
  | nil =>
    intro bs done h1 h2 h3 h4
    simpa using ⟨h1, h2, h3, h4⟩
  | cons q pts ih =>
    intro bs done h1 h2 h3 h4
    obtain ⟨g1, g2, g3, g4⟩ := addPoint_inv prec bs q done h1 h2 h3 h4
    have hfold := ih (addPoint prec bs q) (done ++ [q]) g1 g2 g3 g4
    rw [List.foldl_cons]
    have harr : done ++ q :: pts = (done ++ [q]) ++ pts := by simp
    rw [harr]
    exact hfold

/-- C7: `bucketForHeatmap` groups points by their coordinates rounded to
the requested number of decimal digits: bucket keys are pairwise distinct
(so points with the same rounded coordinates always land in the same
bucket), each point's key has a bucket, each bucket's count is exactly the
number of input points rounding to its key, the bucket counts sum to the
number of input points, the default precision is 4, and the
`(12.344, 78.911)` / `(12.3441, 78.9109)` example at precision 3 gives one
bucket with count 2. -/
theorem claim_C7_heatmap_buckets :
    (∀ (prec : Nat) (pts : List GPSPoint),
      ((heatmapData prec pts).map heatKey).Nodup) ∧
    (∀ (prec : Nat) (pts : List GPSPoint) (b : HeatBucket), b ∈ heatmapData prec pts →
      b.count = pts.countP fun r => decide (bucketKey prec r = heatKey b)) ∧
    (∀ (prec : Nat) (pts : List GPSPoint),
      ((heatmapData prec pts).map HeatBucket.count).sum = pts.length) ∧
    (∀ (prec : Nat) (pts : List GPSPoint) (r : GPSPoint), r ∈ pts →
      ∃ b ∈ heatmapData prec pts, heatKey b = bucketKey prec r) ∧
    defaultPrecision = 4 ∧
    heatmapData 3
      [{ latitude := ⟨12344, 3⟩, longitude := ⟨78911, 3⟩, timestamp := none,
         session := "A", camera := "c1", anomalyType := "t", recordIndex := 0,
         source := none, originalRecord := [] },
       { latitude := ⟨123441, 4⟩, longitude := ⟨789109, 4⟩, timestamp := none,
         session := "B", camera := "c2", anomalyType := "t", recordIndex := 1,
         source := none, originalRecord := [] }] =
      [{ latitude := ⟨12344, 3⟩, longitude := ⟨78911, 3⟩, count := 2,
         sessions := ["A", "B"], cameras := ["c1", "c2"], anomalyTypes := ["t"] }] := by
  have base : ∀ (prec : Nat) (pts : List GPSPoint),
      (((pts.foldl (addPoint prec) []).map heatKey).Nodup ∧
        (∀ b ∈ pts.foldl (addPoint prec) [],
          b.count = (([] : List GPSPoint) ++ pts).countP
            fun r => decide (bucketKey prec r = heatKey b)) ∧
        ((pts.foldl (addPoint prec) []).map HeatBucket.count).sum =
          (([] : List GPSPoint) ++ pts).length ∧
        (∀ r ∈ ([] : List GPSPoint) ++ pts, ∃ b ∈ pts.foldl (addPoint prec) [],
          heatKey b = bucketKey prec r)) := by
    intro prec pts
    exact heatmap_fold_inv prec pts [] [] (by simp) (by simp) (by simp) (by simp)
  refine ⟨?_, ?_, ?_, ?_, rfl, by decide⟩
  · intro prec pts
    exact (base prec pts).1
  · intro prec pts b hb
    have := (base prec pts).2.1 b (by rwa [heatmapData] at hb)
    simpa using this
  · intro prec pts
    have := (base prec pts).2.2.1
    rw [heatmapData]
    simpa using this
  · intro prec pts r hr
    have := (base prec pts).2.2.2 r (by simpa using hr)
    rw [heatmapData]
    exact this

/-- Witness for C7: the count property applied to the concrete bucket of
the two-point example. -/
theorem claim_C7_witness :
    ({ latitude := ⟨12344, 3⟩, longitude := ⟨78911, 3⟩, count := 2,
       sessions := ["A", "B"], cameras := ["c1", "c2"],
       anomalyTypes := ["t"] } : HeatBucket) ∈
      heatmapData 3
        [{ latitude := ⟨12344, 3⟩, longitude := ⟨78911, 3⟩, timestamp := none,
           session := "A", camera := "c1", anomalyType := "t", recordIndex := 0,
           source := none, originalRecord := [] },
         { latitude := ⟨123441, 4⟩, longitude := ⟨789109, 4⟩, timestamp := none,
           session := "B", camera := "c2", anomalyType := "t", recordIndex := 1,
           source := none, originalRecord := [] }] ∧
    (2 : Nat) =
      List.countP
        (fun r => decide (bucketKey 3 r =
          heatKey ⟨⟨12344, 3⟩, ⟨78911, 3⟩, 2, ["A", "B"], ["c1", "c2"], ["t"]⟩))
        [{ latitude := ⟨12344, 3⟩, longitude := ⟨78911, 3⟩, timestamp := none,
           session := "A", camera := "c1", anomalyType := "t", recordIndex := 0,
           source := none, originalRecord := [] },
         { latitude := ⟨123441, 4⟩, longitude := ⟨789109, 4⟩, timestamp := none,
           session := "B", camera := "c2", anomalyType := "t", recordIndex := 1,
           source := none, originalRecord := [] }] :=
  ⟨by decide, claim_C7_heatmap_buckets.2.1 3
    [{ latitude := ⟨12344, 3⟩, longitude := ⟨78911, 3⟩, timestamp := none,
       session := "A", camera := "c1", anomalyType := "t", recordIndex := 0,
       source := none, originalRecord := [] },
     { latitude := ⟨123441, 4⟩, longitude := ⟨789109, 4⟩, timestamp := none,
       session := "B", camera := "c2", anomalyType := "t", recordIndex := 1,
       source := none, originalRecord := [] }]
    { latitude := ⟨12344, 3⟩, longitude := ⟨78911, 3⟩, count := 2,
      sessions := ["A", "B"], cameras := ["c1", "c2"], anomalyTypes := ["t"] }
    (by decide)⟩
